import Mathlib

/-!
Verification of `src/run.c` from aquachain/argon2: the command-line
orchestration around the Argon2 hash/verify primitives.  The C source is
shallowly embedded below: pure helpers become Lean functions, the option
parsing loop becomes a recursion over the argument list, and the process
(`main` / `run`) becomes a pure function from the invocation arguments, the
stdin stream, the initial (uninitialized) password-buffer contents and the
behaviour of the external primitives to an explicit outcome trace that
records the exit kind, the diagnostic message, whether the password buffer
was wiped, and which primitive calls were made with which arguments.

The external header `argon2.h` and the hash/verify/encoding primitives are
not part of the analysed sources; their constants and contracts are modelled
from the specification (each such definition is marked `Modelled from the
spec:` in its doc comment).
-/

namespace ArgonRun

/-- Constant from `run.c`: `#define T_COST_DEF 3`. -/
def T_COST_DEF : Nat := 3

/-- Constant from `run.c`: `#define LOG_M_COST_DEF 12`. -/
def LOG_M_COST_DEF : Nat := 12

/-- Constant from `run.c`: `#define LANES_DEF 1`. -/
def LANES_DEF : Nat := 1

/-- Constant from `run.c`: `#define THREADS_DEF 1`. -/
def THREADS_DEF : Nat := 1

/-- Constant from `run.c`: `#define OUTLEN_DEF 32`. -/
def OUTLEN_DEF : Nat := 32

/-- `ULONG_MAX` on the (64-bit) target: the overflow sentinel of `strtoul`. -/
def ULONG_MAX : Nat := 2 ^ 64 - 1

/-- Modelled from the spec: success status of the external primitives
(`ARGON2_OK` in the header `argon2.h`, which is not under `src/`); the spec
documents the success exit status as 0 and `run.c` returns it from `main`. -/
def ARGON2_OK : Int := 0

/-- Modelled from the spec: the dedicated missing-arguments status code
(`ARGON2_MISSING_ARGS` in the header `argon2.h`, not under `src/`).  The
spec requires only a dedicated status distinct from success (0) and from the
generic failure status (1); the numeric value is the upstream header's. -/
def ARGON2_MISSING_ARGS : Int := -28

/-- Modelled from the spec: maximum number of iterations accepted for `-t`
(`ARGON2_MAX_TIME` in `argon2.h`, not under `src/`); the comment in `run.c`
documents the maximum iterations as `0xFFFFFF` (2^24 - 1). -/
def ARGON2_MAX_TIME : Nat := 0xFFFFFF

/-- Modelled from the spec: maximum thread count for `-p`
(`ARGON2_MAX_THREADS` in `argon2.h`, not under `src/`); the comment in
`run.c` documents the maximum threads as `0xFFFFFF` (2^24 - 1). -/
def ARGON2_MAX_THREADS : Nat := 0xFFFFFF

/-- Modelled from the spec: maximum lane count (`ARGON2_MAX_LANES` in
`argon2.h`, not under `src/`), `0xFFFFFF` in the upstream header. -/
def ARGON2_MAX_LANES : Nat := 0xFFFFFF

/-- Modelled from the spec: inclusive upper bound on the `-m` memory
exponent (`ARGON2_MAX_MEMORY_BITS` in `argon2.h`, not under `src/`);
`min(32, sizeof(void *) * CHAR_BIT - 10 - 1) = 32` on the 64-bit target. -/
def ARGON2_MAX_MEMORY_BITS : Nat := 32

/-- Modelled from the spec: absolute maximum memory cost in KiB
(`ARGON2_MAX_MEMORY` in `argon2.h`, not under `src/`); the comment in
`run.c` documents the maximum memory cost as `0xFFFFFFFF` (2^32 - 1). -/
def ARGON2_MAX_MEMORY : Nat := 0xFFFFFFFF

/-- Modelled from the spec: `argon2_error_message` maps a failure code of
the external primitive to a human-readable diagnostic (the function lives
outside `src/`; only the fact that it supplies the fatal message matters). -/
def argon2_error_message (code : Int) : String :=
  "argon2 primitive error " ++ toString code

/-- The two Argon2 variants selectable in `run.c` (`Argon2_i` default,
`Argon2_d` via the `-d` flag). -/
inductive Variant where
  | i : Variant
  | d : Variant
deriving DecidableEq, Repr

/-- Characters accepted by `isspace` in the C locale, as skipped by
`strtoul` before the number. -/
def isSpaceC (c : Char) : Bool :=
  c = ' ' || c = '\t' || c = '\n' || c = '\x0b' || c = '\x0c' || c = '\r'

/-- Decimal-digit accumulation loop of `strtoul(arg, NULL, 10)`: consume
leading digits, accumulating the (unbounded) value; stop at the first
non-digit. -/
def digitsAcc : Nat → List Char → Nat
  | acc, [] => acc
  | acc, c :: rest =>
    if c.isDigit then digitsAcc (acc * 10 + (c.toNat - 48)) rest else acc

/-- Model of `strtoul(arg, NULL, 10)` on a 64-bit target: skip leading
whitespace, consume an optional single sign, then decimal digits (none at
all yields 0); a magnitude above `ULONG_MAX` yields `ULONG_MAX`; a negated
in-range magnitude wraps modulo 2^64. -/
def strtoul10 (s : String) : Nat :=
  let l := s.toList.dropWhile isSpaceC
  let p : Bool × List Char :=
    match l with
    | '-' :: r => (true, r)
    | '+' :: r => (false, r)
    | r => (false, r)
  let acc := digitsAcc 0 p.2
  if acc > ULONG_MAX then ULONG_MAX
  else if p.1 then (2 ^ 64 - acc) % 2 ^ 64 else acc

/-- Result of validating one numeric option value: the stored value, or the
message passed to `fatal`. -/
inductive OptResult where
  | ok (v : Nat) : OptResult
  | err (msg : String) : OptResult
deriving DecidableEq, Repr

/-- `OptResult.ok` discriminator. -/
def OptResult.isOk : OptResult → Bool
  | .ok _ => true
  | .err _ => false

/-- The `-m` branch of the option loop in `main` (`run.c` lines 172-187):
reject 0, the overflow sentinel and exponents above
`ARGON2_MAX_MEMORY_BITS`; otherwise store
`m_cost = min(1 << input, 0xFFFFFFFF)` and re-check it against
`ARGON2_MAX_MEMORY`. -/
def parse_m (input : Nat) : OptResult :=
  if input = 0 ∨ input = ULONG_MAX ∨ input > ARGON2_MAX_MEMORY_BITS then
    .err "bad numeric input for -m"
  else
    let m_cost := min (2 ^ input) 0xFFFFFFFF
    if m_cost > ARGON2_MAX_MEMORY then .err "m_cost overflow"
    else .ok m_cost

/-- The `-t` branch of the option loop in `main` (`run.c` lines 188-200):
reject 0, the overflow sentinel and values above `ARGON2_MAX_TIME`. -/
def parse_t (input : Nat) : OptResult :=
  if input = 0 ∨ input = ULONG_MAX ∨ input > ARGON2_MAX_TIME then
    .err "bad numeric input for -t"
  else .ok input

/-- The `-p` branch of the option loop in `main` (`run.c` lines 201-214):
reject 0, the overflow sentinel and values above `ARGON2_MAX_THREADS` or
above `ARGON2_MAX_LANES`. -/
def parse_p (input : Nat) : OptResult :=
  if input = 0 ∨ input = ULONG_MAX ∨ input > ARGON2_MAX_THREADS ∨
      input > ARGON2_MAX_LANES then
    .err "bad numeric input for -p"
  else .ok input

/-- The mutable parameter set of `main` in `run.c`: output length, memory
cost (KiB), time cost, lanes, threads and variant. -/
structure Opts where
  outlen : Nat
  m_cost : Nat
  t_cost : Nat
  lanes : Nat
  threads : Nat
  type : Variant
deriving DecidableEq, Repr

/-- Initial values of the parameter set in `main` (`run.c` lines 144-149). -/
def defaultOpts : Opts :=
  { outlen := OUTLEN_DEF
    m_cost := 2 ^ LOG_M_COST_DEF
    t_cost := T_COST_DEF
    lanes := LANES_DEF
    threads := THREADS_DEF
    type := Variant.i }

/-- Result of the option loop: the updated parameter set, or the message of
the `fatal` call that terminated the process. -/
inductive ParseResult where
  | ok (o : Opts) : ParseResult
  | fatal (msg : String) : ParseResult
deriving DecidableEq, Repr

/-- `ParseResult.ok` discriminator. -/
def ParseResult.isOk : ParseResult → Bool
  | .ok _ => true
  | .fatal _ => false

/-- The option loop of `main` (`run.c` lines 169-229) over `argv[2..]`:
each value option consumes the following argument (its absence is fatal),
validates it with the corresponding branch above, and stores it; `-d`
selects `Argon2_d`; anything else is fatal as an unknown argument.  The
`-h` value is stored into the 32-bit `outlen` without validation, hence the
reduction modulo 2^32. -/
def parseArgs : List String → Opts → ParseResult
  | [], o => .ok o
  | a :: rest, o =>
    if a = "-m" then
      match rest with
      | [] => .fatal "missing -m argument"
      | v :: rest' =>
        match parse_m (strtoul10 v) with
        | .err msg => .fatal msg
        | .ok mc => parseArgs rest' { o with m_cost := mc }
    else if a = "-t" then
      match rest with
      | [] => .fatal "missing -t argument"
      | v :: rest' =>
        match parse_t (strtoul10 v) with
        | .err msg => .fatal msg
        | .ok tc => parseArgs rest' { o with t_cost := tc }
    else if a = "-p" then
      match rest with
      | [] => .fatal "missing -p argument"
      | v :: rest' =>
        match parse_p (strtoul10 v) with
        | .err msg => .fatal msg
        | .ok n => parseArgs rest' { o with threads := n, lanes := n }
    else if a = "-h" then
      match rest with
      | [] => .fatal "missing -h argument"
      | v :: rest' => parseArgs rest' { o with outlen := strtoul10 v % 2 ^ 32 }
    else if a = "-d" then parseArgs rest { o with type := Variant.d }
    else .fatal "unknown argument"

/-- `b64len` from `run.c` (lines 58-60): `(size_t)(ceil(len / 3.0) * 4)`
truncated to the `uint32_t` return type.  For every `uint32_t` argument the
double computation is exact (the quotient's distance to the nearest integer
is at least 1/3 while the rounding error is below 2^-20), so the function
equals `ceil(len/3) * 4` reduced modulo 2^32. -/
def b64len (len : Nat) : Nat :=
  ((len + 2) / 3 * 4) % 2 ^ 32

/-- `strlen`: the number of bytes before the first NUL. -/
def cstrlen (s : String) : Nat :=
  (s.toList.takeWhile (fun c => c.toNat ≠ 0)).length

/-- The standard base64 alphabet used by the (external) encoder. -/
def b64Alphabet : List Char :=
  "ABCDEFGHIJKLMNOPQRSTUVWXYZabcdefghijklmnopqrstuvwxyz0123456789+/".toList

/-- Character of one 6-bit group. -/
def b64Char (n : Nat) : Char := b64Alphabet.getD n 'A'

/-- Modelled from the spec: unpadded base64 of a byte sequence, as used by
the external encoder for the salt and digest fields (three bytes map to
four characters; a final group of one or two bytes maps to two or three). -/
def b64Encode : List Nat → List Char
  | [] => []
  | [a] => [b64Char (a / 4), b64Char (a % 4 * 16)]
  | [a, b] => [b64Char (a / 4), b64Char (a % 4 * 16 + b / 16), b64Char (b % 16 * 4)]
  | a :: b :: c :: rest =>
    b64Char (a / 4) :: b64Char (a % 4 * 16 + b / 16) ::
      b64Char (b % 16 * 4 + c / 64) :: b64Char (c % 64) :: b64Encode rest

/-- Decimal digits of `n`, most significant first, by repeated division
(the recursion is fuelled so that it is structural; any fuel at least the
number of digits gives the exact digits). -/
def decChars : Nat → Nat → List Char
  | 0, _ => []
  | _, 0 => []
  | fuel + 1, n + 1 =>
    decChars fuel ((n + 1) / 10) ++ [Char.ofNat (48 + (n + 1) % 10)]

/-- Decimal rendering of an unsigned value, as `printf("%u", n)` prints
it. -/
def decStr (n : Nat) : String :=
  if n = 0 then "0" else String.mk (decChars n n)

/-- Tag character of the variant inside the encoded string. -/
def variantTag : Variant → String
  | .i => "i"
  | .d => "d"

/-- Modelled from the spec: the self-describing encoded credential string
written by the external hash primitive — variant tag, the three decimal
parameters, then the base64-expanded salt and digest with the fixed
delimiter overhead (`$argon2x$m=..,t=..,p=..$salt$digest`). -/
def encodeString (ty : Variant) (m t p : Nat) (saltBytes digest : List Nat) :
    String :=
  "$argon2" ++ variantTag ty ++ "$m=" ++ decStr m ++ ",t=" ++ decStr t ++
    ",p=" ++ decStr p ++ "$" ++ String.mk (b64Encode saltBytes) ++ "$" ++
    String.mk (b64Encode digest)

/-- One hex digit, lowercase. -/
def hexChar (n : Nat) : Char :=
  if n < 10 then Char.ofNat (48 + n) else Char.ofNat (87 + n)

/-- `printf("%02x", b)` for one byte. -/
def hexByte (b : Nat) : List Char := [hexChar (b / 16 % 16), hexChar (b % 16)]

/-- The digest as printed by the hex loop in `run` (`run.c` lines 126-128). -/
def hexStr (l : List Nat) : String :=
  String.mk (l.foldr (fun b acc => hexByte b ++ acc) [])

/-- Strip a trailing newline from a just-read chunk, as `run.c` lines
164-165 do on the NUL-terminated buffer contents. -/
def stripNl (l : List Char) : List Char :=
  if l.getLast? = some '\n' then l.dropLast else l

/-- The `fread` loop of `main` (`run.c` lines 162-166): each iteration
reads up to `sizeof pwd - 1 = 127` bytes from the stream INTO THE START of
the buffer, NUL-terminates them and strips a trailing newline; the loop
ends when the stream is exhausted, so the buffer retains only the last
chunk.  The fuel argument only makes the recursion structural; it is
initialized to the stream length, which bounds the iteration count. -/
def readPwdLoop : Nat → List Char → String → String
  | _, [], pwd => pwd
  | 0, _, pwd => pwd
  | fuel + 1, c :: rest, _ =>
    readPwdLoop fuel (rest.drop 126) (String.mk (stripNl (c :: rest.take 126)))

/-- Contents of the password buffer after the read loop of `main`, given
the stdin stream and the initial (uninitialized) buffer contents, which
survive untouched when the stream yields no bytes. -/
def readPwd (stream : List Char) (buf0 : String) : String :=
  readPwdLoop stream.length stream buf0

/-- Behaviour of the external collaborators consumed by `run`: whether the
two `malloc` calls succeed, and the `argon2_hash` / `argon2_verify`
primitives as black-box functions of exactly the arguments `run.c` passes
them.  `hash` returns its status code, the raw digest it wrote and the
encoded string it wrote. -/
structure Env where
  outAllocOk : Bool
  encAllocOk : Bool
  hash : Nat → Nat → Nat → String → Nat → String → Nat → Nat → Nat →
    Variant → Int × List Nat × String
  verify : String → String → Nat → Variant → Int

/-- Observable trace of one execution of `run` (`run.c` lines 74-141):
the `fatal` message if the process died there (`none` on success), whether
`secure_wipe_memory` ran on the password, the password/length passed to
`argon2_hash` (if the call was reached), the arguments passed to
`argon2_verify` (if that call was reached), and the stdout lines printed. -/
structure RunTrace where
  result : Option String
  wiped : Bool
  hashCall : Option (String × Nat)
  verifyCall : Option (String × String × Nat × Variant)
  lines : List String
deriving DecidableEq, Repr

/-- Shallow embedding of `run` (`run.c` lines 74-141).  The elapsed-time
line is modelled by a fixed placeholder since wall-clock time is outside
the model. -/
def run (e : Env) (outlen : Nat) (pwd salt : Option String)
    (t_cost m_cost _lanes threads : Nat) (ty : Variant) : RunTrace :=
  match pwd with
  | none => ⟨some "password missing", false, none, none, []⟩
  | some pwd =>
    match salt with
    | none => ⟨some "salt missing", true, none, none, []⟩
    | some salt =>
      let pwdlen := cstrlen pwd
      let saltlen := cstrlen salt
      if !e.outAllocOk then
        ⟨some "could not allocate memory for output", true, none, none, []⟩
      else
        let encodedlen := 45 + b64len (saltlen % 2 ^ 32) + b64len outlen
        if !e.encAllocOk then
          ⟨some "could not allocate memory for hash", true, none, none, []⟩
        else
          let r := e.hash t_cost m_cost threads pwd pwdlen salt saltlen
            outlen encodedlen ty
          if r.1 ≠ ARGON2_OK then
            ⟨some (argon2_error_message r.1), false, some (pwd, pwdlen),
              none, []⟩
          else
            let v := e.verify r.2.2 pwd pwdlen ty
            if v ≠ ARGON2_OK then
              ⟨some (argon2_error_message v), false, some (pwd, pwdlen),
                some (r.2.2, pwd, pwdlen, ty),
                ["Hash:\t\t" ++ hexStr r.2.1, "Encoded:\t" ++ r.2.2,
                  "<elapsed> seconds"]⟩
            else
              ⟨none, false, some (pwd, pwdlen),
                some (r.2.2, pwd, pwdlen, ty),
                ["Hash:\t\t" ++ hexStr r.2.1, "Encoded:\t" ++ r.2.2,
                  "<elapsed> seconds", "Verification ok"]⟩

/-- Outcome of one execution of `main` (`run.c` lines 143-241):
the missing-arguments path (usage printed, dedicated status returned), a
`fatal` during option parsing (after the password was read, before `run`),
or the hand-off to `run` with the validated options, the password-buffer
contents and `run`'s own trace. -/
inductive MainOutcome where
  | missingArgs : MainOutcome
  | optFatal (msg : String) : MainOutcome
  | ran (o : Opts) (pwd : String) (tr : RunTrace) : MainOutcome
deriving DecidableEq, Repr

/-- Shallow embedding of `main` (`run.c` lines 143-241): check `argc`,
take the salt from `argv[1]`, fill the password buffer from stdin, run the
option loop, and call `run`.  `buf0` is the indeterminate initial content
of the stack buffer `pwd[128]`. -/
def mainModel (e : Env) (argv : List String) (stream : List Char)
    (buf0 : String) : MainOutcome :=
  match argv with
  | _prog :: salt :: optArgs =>
    let pwd := readPwd stream buf0
    match parseArgs optArgs defaultOpts with
    | .fatal msg => .optFatal msg
    | .ok o =>
      .ran o pwd (run e o.outlen (some pwd) (some salt) o.t_cost o.m_cost
        o.lanes o.threads o.type)
  | _ => .missingArgs

/-- The process exit status of a `main` outcome: the dedicated
missing-arguments code, `exit(1)` from `fatal`, or `ARGON2_OK`. -/
def exitCode : MainOutcome → Int
  | .missingArgs => ARGON2_MISSING_ARGS
  | .optFatal _ => 1
  | .ran _ _ tr => if tr.result.isSome then 1 else 0

/-- The `fatal` diagnostic of a `main` outcome, if any. -/
def mainFatalMsg : MainOutcome → Option String
  | .missingArgs => none
  | .optFatal msg => some msg
  | .ran _ _ tr => tr.result

/-- The single line `fatal` writes to the error stream, per outcome. -/
def mainStderr : MainOutcome → List String
  | .missingArgs => []
  | .optFatal msg => ["Error: " ++ msg]
  | .ran _ _ tr =>
    match tr.result with
    | some msg => ["Error: " ++ msg]
    | none => []

/-- Whether `secure_wipe_memory` ran on the password buffer. -/
def mainWiped : MainOutcome → Bool
  | .ran _ _ tr => tr.wiped
  | _ => false

/-- The password (and length) handed to `argon2_hash`, when the hash call
was reached. -/
def mainHashPwd : MainOutcome → Option (String × Nat)
  | .ran _ _ tr => tr.hashCall
  | _ => none

/-- The password-buffer contents at the point `run` is entered. -/
def mainPwd : MainOutcome → Option String
  | .ran _ p _ => some p
  | _ => none

/-- Modelled from the spec: an environment realising the documented
contract of the external collaborators — allocations succeed, `hash`
succeeds and writes a digest of the requested length together with the
encoded credential string embedding variant, parameters, salt and digest,
and `verify` accepts (the spec's round-trip property: verification of a
string produced by `hash` with the same password and variant succeeds). -/
def specEnv : Env where
  outAllocOk := true
  encAllocOk := true
  hash := fun t m th _pwd _pwdlen salt _saltlen outlen _enclen ty =>
    (0, List.replicate outlen 0,
      encodeString ty m t th (salt.toList.map Char.toNat)
        (List.replicate outlen 0))
  verify := fun _enc _pwd _pwdlen _ty => 0

/-! ## Supporting lemmas -/

/-- Length of the unpadded base64 encoding: `(4 * n + 2) / 3` characters
for `n` input bytes. -/
theorem b64Encode_length : ∀ l : List Nat,
    (b64Encode l).length = (4 * l.length + 2) / 3
  | [] => rfl
  | [_] => by simp [b64Encode]
  | [_, _] => by simp [b64Encode]
  | _ :: _ :: _ :: rest => by
    have ih := b64Encode_length rest
    simp only [b64Encode, List.length_cons]
    omega

/-- A value below `10 ^ k` has at most `k` decimal digits, whatever the
fuel. -/
theorem decChars_length_le : ∀ (fuel n k : Nat), n < 10 ^ k →
    (decChars fuel n).length ≤ k
  | 0, 0, _, _ => by simp [decChars]
  | 0, _ + 1, _, _ => by simp [decChars]
  | _ + 1, 0, _, _ => by simp [decChars]
  | fuel + 1, n + 1, k, h => by
    match k with
    | 0 => omega
    | k + 1 =>
      have hd : (n + 1) / 10 < 10 ^ k := by
        rw [Nat.div_lt_iff_lt_mul (by norm_num)]
        calc n + 1 < 10 ^ (k + 1) := h
        _ = 10 ^ k * 10 := by rw [Nat.pow_succ]
      have ih := decChars_length_le fuel ((n + 1) / 10) k hd
      simp only [decChars, List.length_append, List.length_cons,
        List.length_nil]
      omega

/-- A value below `10 ^ k` (with `k` positive) prints with at most `k`
decimal characters. -/
theorem decStr_length_le (n k : Nat) (hk : 0 < k) (h : n < 10 ^ k) :
    (decStr n).length ≤ k := by
  unfold decStr
  split
  · simpa using hk
  · exact decChars_length_le n n k h

/-- The option loop never breaks `lanes = threads`: only the `-p` branch
touches either field and it writes the same value to both. -/
theorem parseArgs_lanes_eq_threads (args : List String) (o : Opts) :
    o.lanes = o.threads → ∀ o' : Opts, parseArgs args o = ParseResult.ok o' →
    o'.lanes = o'.threads := by
  induction args, o using parseArgs.induct with
  | case1 o =>
    intro h o' hp
    simp only [parseArgs, ParseResult.ok.injEq] at hp
    rw [← hp]; exact h
  | case2 o => intro h o' hp; simp [parseArgs] at hp
  | case3 o v rest msg hx => intro h o' hp; simp [parseArgs, hx] at hp
  | case4 o v rest mc hx ih =>
    intro h o' hp
    simp [parseArgs, hx] at hp
    exact ih (by simpa using h) o' hp
  | case5 o hn1 => intro h o' hp; simp [parseArgs] at hp
  | case6 o v rest msg hx hn1 => intro h o' hp; simp [parseArgs, hx] at hp
  | case7 o v rest tc hx hn1 ih =>
    intro h o' hp
    simp [parseArgs, hx] at hp
    exact ih (by simpa using h) o' hp
  | case8 o hn1 hn2 => intro h o' hp; simp [parseArgs] at hp
  | case9 o v rest msg hx hn1 hn2 => intro h o' hp; simp [parseArgs, hx] at hp
  | case10 o v rest n hx hn1 hn2 ih =>
    intro h o' hp
    simp [parseArgs, hx] at hp
    exact ih (by simp) o' hp
  | case11 o hn1 hn2 hn3 => intro h o' hp; simp [parseArgs] at hp
  | case12 o v rest hn1 hn2 hn3 ih =>
    intro h o' hp
    simp [parseArgs] at hp
    exact ih (by simpa using h) o' hp
  | case13 rest o hn1 hn2 hn3 hn4 ih =>
    intro h o' hp
    rw [parseArgs.eq_def] at hp
    simp at hp
    exact ih (by simpa using h) o' hp
  | case14 a rest o h1 h2 h3 h4 h5 =>
    intro h o' hp
    rw [parseArgs.eq_def] at hp
    simp [h1, h2, h3, h4, h5] at hp

/-! ## Claim theorems -/

/-- C2: for every salt length in [0, 16] and every output length in
[1, 1024], the computed encoded-string capacity
`45 + ceil(saltlen/3)*4 + ceil(outlen/3)*4` (the `encodedlen` of `run.c`
line 111) is at least the actual length of the encoded credential string
the hash call produces, for any parameter values within the argon2 bounds
the option loop enforces (memory cost below 2^32, iterations and
parallelism below 2^24). -/
theorem c2_encoded_capacity (ty : Variant) (m t p : Nat)
    (saltBytes digest : List Nat)
    (hs : saltBytes.length ≤ 16) (hd1 : 1 ≤ digest.length)
    (hd2 : digest.length ≤ 1024) (hm : m < 2 ^ 32) (ht : t < 2 ^ 24)
    (hp : p < 2 ^ 24) :
    (encodeString ty m t p saltBytes digest).length ≤
      45 + b64len saltBytes.length + b64len digest.length := by
  have h1 : (decStr m).length ≤ 10 :=
    decStr_length_le m 10 (by norm_num) (lt_of_lt_of_le hm (by norm_num))
  have h2 : (decStr t).length ≤ 8 :=
    decStr_length_le t 8 (by norm_num) (lt_of_lt_of_le ht (by norm_num))
  have h3 : (decStr p).length ≤ 8 :=
    decStr_length_le p 8 (by norm_num) (lt_of_lt_of_le hp (by norm_num))
  have hb1 := b64Encode_length saltBytes
  have hb2 := b64Encode_length digest
  have e1 : b64len saltBytes.length = (saltBytes.length + 2) / 3 * 4 := by
    unfold b64len; exact Nat.mod_eq_of_lt (by omega)
  have e2 : b64len digest.length = (digest.length + 2) / 3 * 4 := by
    unfold b64len; exact Nat.mod_eq_of_lt (by omega)
  have l1 : ("$argon2" : String).length = 7 := rfl
  have l2 : ("$m=" : String).length = 3 := rfl
  have l3 : (",t=" : String).length = 3 := rfl
  have l4 : (",p=" : String).length = 3 := rfl
  have l5 : ("$" : String).length = 1 := rfl
  have l6 : ("i" : String).length = 1 := rfl
  have l7 : ("d" : String).length = 1 := rfl
  cases ty <;>
    simp only [encodeString, variantTag, String.length_append,
      String.length_mk, l1, l2, l3, l4, l5, l6, l7, hb1, hb2, e1, e2] <;>
    omega

/-- Witness for C2: the default invocation (salt `somesalt`, 32-byte
digest, `m=4096`, `t=3`, `p=1`). -/
theorem c2_encoded_capacity_witness :
    (encodeString Variant.i 4096 3 1 ("somesalt".toList.map Char.toNat)
        (List.replicate 32 0)).length ≤
      45 + b64len ("somesalt".toList.map Char.toNat).length +
        b64len (List.replicate 32 0).length :=
  c2_encoded_capacity Variant.i 4096 3 1 _ _ (by decide) (by decide)
    (by decide) (by norm_num) (by norm_num) (by norm_num)

/-- Counterexample for C3: at exponent 32 the validation succeeds but the
stored memory cost is the saturated value 2^32 - 1, not 2^32, so the
claim's postcondition "the memory-cost parameter equals 2^N KiB" fails. -/
theorem c3_m_cost_saturates_cex :
    parse_m 32 = OptResult.ok 4294967295 ∧ (4294967295 : Nat) ≠ 2 ^ 32 := by
  constructor <;> decide

/-- C3 (amended): parsing of the `-m` value N succeeds iff `0 < N`,
`N ≠ ULONG_MAX`, `N ≤ ARGON2_MAX_MEMORY_BITS` and the saturated power
`min(2^N, 2^32-1)` is at most `ARGON2_MAX_MEMORY`; on success the stored
memory cost is the saturated power `min(2^N, 2^32-1)` (which equals `2^N`
only for `N ≤ 31`); a rejected value routes the option loop to `fatal`. -/
theorem c3_parse_m_bounds :
    (∀ N : Nat,
      ((parse_m N).isOk = true ↔
        (0 < N ∧ N ≠ ULONG_MAX ∧ N ≤ ARGON2_MAX_MEMORY_BITS ∧
          min (2 ^ N) (2 ^ 32 - 1) ≤ ARGON2_MAX_MEMORY)) ∧
      ∀ v : Nat, parse_m N = OptResult.ok v → v = min (2 ^ N) (2 ^ 32 - 1)) ∧
    ∀ (v : String) (rest : List String) (o : Opts) (msg : String),
      parse_m (strtoul10 v) = OptResult.err msg →
      parseArgs ("-m" :: v :: rest) o = ParseResult.fatal msg := by
  have hmm : ARGON2_MAX_MEMORY = 2 ^ 32 - 1 := by norm_num [ARGON2_MAX_MEMORY]
  have hx : (0xFFFFFFFF : Nat) = 2 ^ 32 - 1 := by norm_num
  have hsat : ∀ N : Nat, ¬ min (2 ^ N) (2 ^ 32 - 1) > ARGON2_MAX_MEMORY :=
    fun N => not_lt.mpr (hmm ▸ min_le_right _ _)
  constructor
  · intro N
    constructor
    · unfold parse_m
      split
      · next hcond =>
        simp only [OptResult.isOk, Bool.false_eq_true, false_iff]
        intro ⟨h1, h2, h3, _⟩
        rcases hcond with h | h | h
        · omega
        · exact h2 h
        · omega
      · next hcond =>
        push_neg at hcond
        obtain ⟨h1, h2, h3⟩ := hcond
        rw [hx, if_neg (hsat N)]
        simp only [OptResult.isOk, true_iff]
        exact ⟨by omega, h2, by omega, hmm ▸ min_le_right _ _⟩
    · intro v hv
      unfold parse_m at hv
      split at hv
      · simp at hv
      · rw [hx, if_neg (hsat N)] at hv
        injection hv with h
        exact h.symm
  · intro v rest o msg h
    simp [parseArgs, h]

/-- Witness for C3 (amended): `-m 12` stores the saturated power (= 4096),
and the non-numeric value `abc` parses to 0 and is fatal. -/
theorem c3_parse_m_bounds_witness :
    ((4096 : Nat) = min (2 ^ 12) (2 ^ 32 - 1)) ∧
    parseArgs ["-m", "abc"] defaultOpts =
      ParseResult.fatal "bad numeric input for -m" :=
  ⟨(c3_parse_m_bounds.1 12).2 4096 (by decide),
   c3_parse_m_bounds.2 "abc" [] defaultOpts "bad numeric input for -m"
     (by decide)⟩

/-- C4: parsing of the `-p` value N succeeds iff `0 < N`, `N ≠ ULONG_MAX`
and `N ≤ min(ARGON2_MAX_THREADS, ARGON2_MAX_LANES)`; on success the single
validated value is stored into both `threads` and `lanes`, and every
parameter set the option loop validates (starting from the defaults) has
`lanes = threads`. -/
theorem c4_parse_p_lanes_threads :
    (∀ N : Nat,
      (parse_p N).isOk = true ↔
        (0 < N ∧ N ≠ ULONG_MAX ∧
          N ≤ min ARGON2_MAX_THREADS ARGON2_MAX_LANES)) ∧
    (∀ (v : String) (rest : List String) (o : Opts) (n : Nat),
      parse_p (strtoul10 v) = OptResult.ok n →
      parseArgs ("-p" :: v :: rest) o =
        parseArgs rest { o with threads := n, lanes := n }) ∧
    ∀ (args : List String) (o' : Opts),
      parseArgs args defaultOpts = ParseResult.ok o' →
      o'.lanes = o'.threads := by
  have hm : min ARGON2_MAX_THREADS ARGON2_MAX_LANES = 16777215 := rfl
  have ht : ARGON2_MAX_THREADS = 16777215 := rfl
  have hl : ARGON2_MAX_LANES = 16777215 := rfl
  have hu : ULONG_MAX = 18446744073709551615 := by norm_num [ULONG_MAX]
  refine ⟨?_, ?_, ?_⟩
  · intro N
    unfold parse_p
    split
    · next hcond =>
      simp only [OptResult.isOk, Bool.false_eq_true, false_iff]
      intro ⟨h1, h2, h3⟩
      rw [hm] at h3
      rw [ht, hl, hu] at hcond
      rw [hu] at h2
      rcases hcond with h | h | h | h <;> omega
    · next hcond =>
      push_neg at hcond
      obtain ⟨h1, h2, h3, h4⟩ := hcond
      simp only [OptResult.isOk, true_iff]
      rw [hm, ht] at *
      exact ⟨by omega, h2, by omega⟩
  · intro v rest o n h
    simp [parseArgs, h]
  · intro args o' hp
    exact parseArgs_lanes_eq_threads args defaultOpts rfl o' hp

/-- Witness for C4: `-p 4` validates, updates both fields, and the
resulting parameter set keeps `lanes = threads`. -/
theorem c4_parse_p_witness :
    (parse_p 4).isOk = true ∧
    parseArgs ["-p", "4"] defaultOpts =
      parseArgs [] { defaultOpts with threads := 4, lanes := 4 } ∧
    ∀ o' : Opts, parseArgs ["-p", "4"] defaultOpts = ParseResult.ok o' →
      o'.lanes = o'.threads :=
  ⟨(c4_parse_p_lanes_threads.1 4).mpr (by decide),
   c4_parse_p_lanes_threads.2.1 "4" [] defaultOpts 4 (by decide),
   fun o' => c4_parse_p_lanes_threads.2.2 ["-p", "4"] o'⟩

/-- Whether `main` reaches the call to `run`: at least two invocation
arguments and an option loop that did not `fatal`. -/
def mainReachedRun (argv : List String) : Bool :=
  match argv with
  | _ :: _ :: optArgs => (parseArgs optArgs defaultOpts).isOk
  | _ => false

/-- Path-by-path account of `secure_wipe_memory` in `run`: the wipe happens
exactly when the password pointer is non-null and either the salt pointer
is null or one of the two allocations fails; the hash-failure,
verify-failure and success paths do not wipe. -/
theorem run_wiped_eq (e : Env) (outlen : Nat) (pwd salt : Option String)
    (t m l th : Nat) (ty : Variant) :
    (run e outlen pwd salt t m l th ty).wiped =
      (pwd.isSome && (salt.isNone || !e.outAllocOk || !e.encAllocOk)) := by
  cases pwd with
  | none => simp [run]
  | some pwd =>
    cases salt with
    | none => simp [run]
    | some salt =>
      cases ho : e.outAllocOk with
      | false => simp [run, ho]
      | true =>
        cases he : e.encAllocOk with
        | false => simp [run, ho, he]
        | true =>
          simp [run, ho, he]
          split <;> first
            | rfl
            | (split <;> rfl)

/-- Counterexample for C1: a complete successful run (salt `somesalt`,
password `password` from stdin, default options, primitives succeeding)
terminates with the password buffer populated and never wiped. -/
theorem c1_success_unwiped_cex :
    mainFatalMsg (mainModel specEnv ["argon2", "somesalt"]
        "password\n".toList "") = none ∧
    mainPwd (mainModel specEnv ["argon2", "somesalt"]
        "password\n".toList "") = some "password" ∧
    mainWiped (mainModel specEnv ["argon2", "somesalt"]
        "password\n".toList "") = false := by
  refine ⟨by decide, by decide, by decide⟩

/-- C1 (amended): the password buffer is wiped exactly on the missing-salt
path and the two allocation-failure paths of `run`; it is NOT wiped on the
success path, the bad-option paths of `main`, the hash-primitive-failure
path or the verify-primitive-failure path. -/
theorem c1_wipe_only_on_early_paths :
    (∀ (e : Env) (outlen : Nat) (pwd salt : Option String)
        (t m l th : Nat) (ty : Variant),
      (run e outlen pwd salt t m l th ty).wiped =
        (pwd.isSome && (salt.isNone || !e.outAllocOk || !e.encAllocOk))) ∧
    ∀ (e : Env) (argv : List String) (stream : List Char) (b : String),
      mainWiped (mainModel e argv stream b) =
        (mainReachedRun argv && (!e.outAllocOk || !e.encAllocOk)) := by
  refine ⟨run_wiped_eq, ?_⟩
  intro e argv stream b
  match argv with
  | [] => simp [mainModel, mainWiped, mainReachedRun]
  | [p] => simp [mainModel, mainWiped, mainReachedRun]
  | p :: salt :: optArgs =>
    simp only [mainModel, mainReachedRun]
    cases hp : parseArgs optArgs defaultOpts with
    | fatal msg => simp [mainWiped, ParseResult.isOk]
    | ok o =>
      simp only [mainWiped, ParseResult.isOk]
      rw [run_wiped_eq]
      simp

/-- C5: fewer than two invocation arguments yield the usage/missing-args
outcome with the dedicated status (distinct from 0 and 1); every other
fatal condition prints exactly one `Error:` line to the error stream and
exits with the generic failure status 1; a complete run exits with 0. -/
theorem c5_exit_statuses :
    (∀ (e : Env) (argv : List String) (stream : List Char) (b : String),
      argv.length < 2 → mainModel e argv stream b = MainOutcome.missingArgs) ∧
    (exitCode MainOutcome.missingArgs = ARGON2_MISSING_ARGS ∧
      ARGON2_MISSING_ARGS ≠ 0 ∧ ARGON2_MISSING_ARGS ≠ 1) ∧
    (∀ (e : Env) (argv : List String) (stream : List Char) (b : String)
        (msg : String),
      mainFatalMsg (mainModel e argv stream b) = some msg →
      exitCode (mainModel e argv stream b) = 1 ∧
      mainStderr (mainModel e argv stream b) = ["Error: " ++ msg]) ∧
    ∀ (e : Env) (argv : List String) (stream : List Char) (b : String),
      mainFatalMsg (mainModel e argv stream b) = none →
      mainModel e argv stream b ≠ MainOutcome.missingArgs →
      exitCode (mainModel e argv stream b) = 0 := by
  refine ⟨?_, ⟨rfl, by norm_num [ARGON2_MISSING_ARGS],
    by norm_num [ARGON2_MISSING_ARGS]⟩, ?_, ?_⟩
  · intro e argv stream b h
    cases argv with
    | nil => rfl
    | cons x t =>
      cases t with
      | nil => rfl
      | cons y r =>
        exact absurd h (by simp only [List.length_cons]; omega)
  · intro e argv stream b msg h
    cases hmo : mainModel e argv stream b with
    | missingArgs => rw [hmo] at h; simp [mainFatalMsg] at h
    | optFatal m =>
      rw [hmo] at h
      simp only [mainFatalMsg, Option.some.injEq] at h
      subst h
      exact ⟨rfl, rfl⟩
    | ran o p tr =>
      rw [hmo] at h
      simp only [mainFatalMsg] at h
      exact ⟨by simp [exitCode, h], by simp [mainStderr, h]⟩
  · intro e argv stream b h hne
    cases hmo : mainModel e argv stream b with
    | missingArgs => exact absurd hmo hne
    | optFatal m => rw [hmo] at h; simp [mainFatalMsg] at h
    | ran o p tr =>
      rw [hmo] at h
      simp only [mainFatalMsg] at h
      simp [exitCode, h]

/-- Witness for C5: no salt, an unknown option, and a complete default
run. -/
theorem c5_exit_statuses_witness :
    mainModel specEnv ["argon2"] [] "" = MainOutcome.missingArgs ∧
    (exitCode (mainModel specEnv ["argon2", "somesalt", "-x"] [] "") = 1 ∧
      mainStderr (mainModel specEnv ["argon2", "somesalt", "-x"] [] "") =
        ["Error: " ++ "unknown argument"]) ∧
    exitCode (mainModel specEnv ["argon2", "somesalt"] [] "") = 0 :=
  ⟨c5_exit_statuses.1 specEnv ["argon2"] [] "" (by norm_num),
   c5_exit_statuses.2.2.1 specEnv ["argon2", "somesalt", "-x"] [] ""
     "unknown argument" (by decide),
   c5_exit_statuses.2.2.2 specEnv ["argon2", "somesalt"] [] "" (by decide)
     (by decide)⟩

/-- Modelled from the spec: the documented contract of the external pair of
primitives — verification of an encoded string freshly produced by a
successful hash call, with the same password and variant, succeeds. -/
def RoundTripContract (e : Env) : Prop :=
  ∀ (t m th : Nat) (pwd : String) (pwdlen : Nat) (salt : String)
    (saltlen outlen enclen : Nat) (ty : Variant),
    (e.hash t m th pwd pwdlen salt saltlen outlen enclen ty).1 = ARGON2_OK →
    e.verify (e.hash t m th pwd pwdlen salt saltlen outlen enclen ty).2.2
      pwd pwdlen ty = ARGON2_OK

/-- C6: after a successful hash call, `run` invokes the verify primitive
with exactly the freshly produced encoded string, the original password
with its original length, and the selected variant; under the primitives'
round-trip contract this verification succeeds and `run` ends successfully
printing the confirmation line `Verification ok`. -/
theorem c6_verify_roundtrip (e : Env) (hc : RoundTripContract e)
    (ho : e.outAllocOk = true) (he : e.encAllocOk = true)
    (outlen : Nat) (pwd salt : String) (t m l th : Nat) (ty : Variant)
    (res : Int × List Nat × String)
    (hres : e.hash t m th pwd (cstrlen pwd) salt (cstrlen salt) outlen
        (45 + b64len (cstrlen salt % 2 ^ 32) + b64len outlen) ty = res)
    (hok : res.1 = ARGON2_OK) :
    run e outlen (some pwd) (some salt) t m l th ty =
      ⟨none, false, some (pwd, cstrlen pwd),
        some (res.2.2, pwd, cstrlen pwd, ty),
        ["Hash:\t\t" ++ hexStr res.2.1, "Encoded:\t" ++ res.2.2,
          "<elapsed> seconds", "Verification ok"]⟩ := by
  have hv : e.verify res.2.2 pwd (cstrlen pwd) ty = ARGON2_OK := by
    have hcontract := hc t m th pwd (cstrlen pwd) salt (cstrlen salt) outlen
      (45 + b64len (cstrlen salt % 2 ^ 32) + b64len outlen) ty
    rw [hres] at hcontract
    exact hcontract hok
  have hres2 := hres
  norm_num at hres2
  simp [run, ho, he, hres2, hok, hv]

/-- Witness for C6: the default invocation against the spec-modelled
primitives. -/
theorem c6_verify_roundtrip_witness :
    run specEnv 32 (some "password") (some "somesalt") 3 4096 1 1 Variant.i =
      ⟨none, false, some ("password", 8),
        some ("$argon2i$m=4096,t=3,p=1$c29tZXNhbHQ$AAAAAAAAAAAAAAAAAAAAAAAAAAAAAAAAAAAAAAAAAAA",
          "password", 8, Variant.i),
        ["Hash:\t\t" ++ hexStr (List.replicate 32 0),
         "Encoded:\t" ++ "$argon2i$m=4096,t=3,p=1$c29tZXNhbHQ$AAAAAAAAAAAAAAAAAAAAAAAAAAAAAAAAAAAAAAAAAAA",
         "<elapsed> seconds", "Verification ok"]⟩ :=
  c6_verify_roundtrip specEnv (fun _ _ _ _ _ _ _ _ _ _ _ => rfl) rfl rfl
    32 "password" "somesalt" 3 4096 1 1 Variant.i
    (0, List.replicate 32 0,
      "$argon2i$m=4096,t=3,p=1$c29tZXNhbHQ$AAAAAAAAAAAAAAAAAAAAAAAAAAAAAAAAAAAAAAAAAAA")
    (by decide) rfl

set_option maxRecDepth 4000 in
/-- Counterexample for C7: a 128-byte stream (one byte more than the loop
reads per iteration) leaves only the final one-byte chunk in the buffer,
so the resulting password is `a` and not the stream's content. -/
theorem c7_long_stream_cex :
    readPwd (List.replicate 128 'a') "" = "a" ∧
    String.mk (stripNl (List.replicate 128 'a')) ≠ "a" := by
  constructor <;> decide

/-- C7 (amended): each loop iteration overwrites the buffer with the next
chunk of up to 127 bytes, so only the final chunk survives; for every
non-empty input stream of at most 127 bytes (fewer than the 128-byte
buffer) the resulting password equals the stream's content with one
trailing newline removed. -/
theorem c7_read_pwd_short_stream (stream : List Char) (b : String)
    (h1 : 0 < stream.length) (h2 : stream.length ≤ 127) :
    readPwd stream b = String.mk (stripNl stream) := by
  cases stream with
  | nil => simp at h1
  | cons c rest =>
    have hlen : rest.length ≤ 126 := by
      simp only [List.length_cons] at h2; omega
    simp only [readPwd, List.length_cons, readPwdLoop,
      List.drop_eq_nil_of_le hlen, List.take_of_length_le hlen]

/-- Witness for C7 (amended): the stream `password\n`. -/
theorem c7_read_pwd_short_stream_witness :
    readPwd "password\n".toList "" = String.mk (stripNl "password\n".toList) :=
  c7_read_pwd_short_stream "password\n".toList "" (by decide) (by decide)

/-- C8: every argument error is fatal before any hashing — an option with
no following value, a non-numeric value for `-t`/`-m`/`-p` (which
`strtoul` parses to 0), an out-of-range value, and an unrecognized option
each make the option loop `fatal`, and a `fatal` option loop means `main`
never reaches the hash call and exits with status 1. -/
theorem c8_argument_errors :
    (∀ o : Opts,
      parseArgs ["-m"] o = ParseResult.fatal "missing -m argument" ∧
      parseArgs ["-t"] o = ParseResult.fatal "missing -t argument" ∧
      parseArgs ["-p"] o = ParseResult.fatal "missing -p argument" ∧
      parseArgs ["-h"] o = ParseResult.fatal "missing -h argument") ∧
    (∀ (v : String) (rest : List String) (o : Opts), strtoul10 v = 0 →
      parseArgs ("-m" :: v :: rest) o =
        ParseResult.fatal "bad numeric input for -m" ∧
      parseArgs ("-t" :: v :: rest) o =
        ParseResult.fatal "bad numeric input for -t" ∧
      parseArgs ("-p" :: v :: rest) o =
        ParseResult.fatal "bad numeric input for -p") ∧
    (∀ (v : String) (rest : List String) (o : Opts) (msg : String),
      (parse_t (strtoul10 v) = OptResult.err msg →
        parseArgs ("-t" :: v :: rest) o = ParseResult.fatal msg) ∧
      (parse_p (strtoul10 v) = OptResult.err msg →
        parseArgs ("-p" :: v :: rest) o = ParseResult.fatal msg)) ∧
    (∀ (a : String) (rest : List String) (o : Opts),
      a ≠ "-m" → a ≠ "-t" → a ≠ "-p" → a ≠ "-h" → a ≠ "-d" →
      parseArgs (a :: rest) o = ParseResult.fatal "unknown argument") ∧
    ∀ (e : Env) (prog salt : String) (optArgs : List String)
      (stream : List Char) (b : String) (msg : String),
      parseArgs optArgs defaultOpts = ParseResult.fatal msg →
      mainModel e (prog :: salt :: optArgs) stream b =
        MainOutcome.optFatal msg ∧
      mainHashPwd (mainModel e (prog :: salt :: optArgs) stream b) = none ∧
      exitCode (mainModel e (prog :: salt :: optArgs) stream b) = 1 := by
  refine ⟨?_, ?_, ?_, ?_, ?_⟩
  · intro o
    refine ⟨?_, ?_, ?_, ?_⟩ <;> simp [parseArgs]
  · intro v rest o h
    refine ⟨?_, ?_, ?_⟩ <;> simp [parseArgs, h, parse_m, parse_t, parse_p]
  · intro v rest o msg
    constructor
    · intro h; simp [parseArgs, h]
    · intro h; simp [parseArgs, h]
  · intro a rest o h1 h2 h3 h4 h5
    rw [parseArgs.eq_def]
    simp [h1, h2, h3, h4, h5]
  · intro e prog salt optArgs stream b msg hp
    refine ⟨?_, ?_, ?_⟩ <;> simp [mainModel, hp, mainHashPwd, exitCode]

/-- Witness for C8: missing value, malformed value, zero value, unknown
option, and the resulting hash-free fatal outcome of `main`. -/
theorem c8_argument_errors_witness :
    parseArgs ["-m"] defaultOpts = ParseResult.fatal "missing -m argument" ∧
    parseArgs ["-t", "abc"] defaultOpts =
      ParseResult.fatal "bad numeric input for -t" ∧
    parseArgs ["-t", "0"] defaultOpts =
      ParseResult.fatal "bad numeric input for -t" ∧
    parseArgs ["-x"] defaultOpts = ParseResult.fatal "unknown argument" ∧
    mainModel specEnv ["argon2", "somesalt", "-x"] [] "" =
      MainOutcome.optFatal "unknown argument" ∧
    mainHashPwd (mainModel specEnv ["argon2", "somesalt", "-x"] [] "") =
      none :=
  ⟨(c8_argument_errors.1 defaultOpts).1,
   ((c8_argument_errors.2.1 "abc" [] defaultOpts (by decide)).2).1,
   ((c8_argument_errors.2.1 "0" [] defaultOpts (by decide)).2).1,
   c8_argument_errors.2.2.2.1 "-x" [] defaultOpts (by decide) (by decide)
     (by decide) (by decide) (by decide),
   (c8_argument_errors.2.2.2.2 specEnv "argon2" "somesalt" ["-x"] [] ""
     "unknown argument" (by decide)).1,
   (c8_argument_errors.2.2.2.2 specEnv "argon2" "somesalt" ["-x"] [] ""
     "unknown argument" (by decide)).2.1⟩

/-- Counterexample for C9: when the stream yields no bytes the process
does NOT fail fatally — `pwd` is a stack array whose address is never
null, so `run` proceeds and hashes the buffer's indeterminate prior
contents (here modelled as `XYZ`). -/
theorem c9_empty_stream_hashes_garbage_cex :
    mainFatalMsg (mainModel specEnv ["argon2", "somesalt"] [] "XYZ") =
      none ∧
    mainHashPwd (mainModel specEnv ["argon2", "somesalt"] [] "XYZ") =
      some ("XYZ", 3) := by
  refine ⟨by decide, by decide⟩

/-- C9 (amended): an empty password (for example a bare newline on stdin)
is accepted and hashed normally, and the `password missing` fatal can only
fire for a null password pointer — never for a password passed from
`main`'s stack buffer, even when the stream yielded no bytes and the
buffer keeps its indeterminate initial contents. -/
theorem c9_empty_password_accepted :
    (∀ b0 : String, readPwd [] b0 = b0) ∧
    (∀ b0 : String, readPwd ['\n'] b0 = "") ∧
    ∀ (e : Env) (outlen : Nat) (pwd : String) (salt : Option String)
      (t m l th : Nat) (ty : Variant),
      (run e outlen (some pwd) salt t m l th ty).result ≠
        some "password missing" := by
  refine ⟨fun b0 => rfl, fun b0 => rfl, ?_⟩
  intro e outlen pwd salt t m l th ty
  have hmsg : ∀ code : Int, argon2_error_message code ≠ "password missing" := by
    intro code h
    have hl := congrArg String.length h
    have h16 : ("argon2 primitive error " : String).length = 23 := by decide
    have h15 : ("password missing" : String).length = 16 := by decide
    simp only [argon2_error_message, String.length_append, h16, h15] at hl
    omega
  cases salt with
  | none => simp [run]
  | some salt =>
    cases ho : e.outAllocOk with
    | false => simp [run, ho]
    | true =>
      cases he : e.encAllocOk with
      | false => simp [run, ho, he]
      | true =>
        simp [run, ho, he]
        split
        · split <;> simp [hmsg]
        · simp [hmsg]

/-- C10: the `-h` value undergoes no range validation — every parsed
numeric value (including 0, 2^32 and `ULONG_MAX`) is accepted without a
fatal error and stored into the 32-bit `outlen` reduced modulo 2^32. -/
theorem c10_outlen_unchecked :
    (∀ (v : String) (rest : List String) (o : Opts),
      parseArgs ("-h" :: v :: rest) o =
        parseArgs rest { o with outlen := strtoul10 v % 2 ^ 32 }) ∧
    parseArgs ["-h", "0"] defaultOpts =
      ParseResult.ok { defaultOpts with outlen := 0 } ∧
    parseArgs ["-h", "4294967296"] defaultOpts =
      ParseResult.ok { defaultOpts with outlen := 0 } ∧
    parseArgs ["-h", "18446744073709551615"] defaultOpts =
      ParseResult.ok { defaultOpts with outlen := 4294967295 } := by
  refine ⟨?_, by decide, by decide, by decide⟩
  intro v rest o
  simp [parseArgs]

/-- Witness for C1 (amended): the wipe characterization at a concrete
invocation. -/
theorem c1_wipe_only_on_early_paths_witness :
    mainWiped (mainModel specEnv ["argon2", "somesalt"] [] "") =
      (mainReachedRun ["argon2", "somesalt"] &&
        (!specEnv.outAllocOk || !specEnv.encAllocOk)) :=
  c1_wipe_only_on_early_paths.2 specEnv ["argon2", "somesalt"] [] ""

/-- Witness for C9 (amended): an empty password is not rejected as
missing. -/
theorem c9_empty_password_accepted_witness :
    (run specEnv 32 (some "") (some "somesalt") 3 4096 1 1
        Variant.i).result ≠ some "password missing" :=
  c9_empty_password_accepted.2.2 specEnv 32 "" (some "somesalt") 3 4096 1 1
    Variant.i

/-- Witness for C10: the `-h` branch at the concrete value `0`. -/
theorem c10_outlen_unchecked_witness :
    parseArgs ["-h", "0"] defaultOpts =
      parseArgs [] { defaultOpts with outlen := strtoul10 "0" % 2 ^ 32 } :=
  c10_outlen_unchecked.1 "0" [] defaultOpts

end ArgonRun
